import Mathlib

/-!
Shallow embedding of the two modules of the repository
(`desafios/exercicio1/event_validator.py` and
`desafios/exercicio2/json_schema_to_hive.py`).

Python dictionaries are modelled as association lists in insertion order
(iteration order of a Python dict is insertion order); JSON-like Python
values are modelled by the inductive type `Json`.  Machine-level details
that the code never relies on (string interning, hash seeds) are not
modelled.  Exceptions that the code can raise and does not catch are
modelled with `Except PyErr`; log calls are modelled as structured log
events (the exact Portuguese message texts are abstracted into one
constructor per distinct call site, keeping the log level).
-/

/-- A Python value as it occurs in the repository's schemas and events:
strings, ints, booleans, lists and dicts (association lists in insertion
order). -/
inductive Json where
  | str (s : String)
  | int (n : Int)
  | bool (b : Bool)
  | list (xs : List Json)
  | obj (fields : List (String × Json))

mutual

/-- Structural equality of modelled Python values (Python `==` on these
shapes). -/
def Json.beq : Json → Json → Bool
  | .str a, .str b => a == b
  | .int a, .int b => a == b
  | .bool a, .bool b => a == b
  | .list xs, .list ys => Json.beqList xs ys
  | .obj fs, .obj gs => Json.beqFields fs gs
  | _, _ => false

def Json.beqList : List Json → List Json → Bool
  | [], [] => true
  | x :: xs, y :: ys => Json.beq x y && Json.beqList xs ys
  | _, _ => false

def Json.beqFields : List (String × Json) → List (String × Json) → Bool
  | [], [] => true
  | (k, v) :: fs, (l, w) :: gs => k == l && Json.beq v w && Json.beqFields fs gs
  | _, _ => false

end

mutual

theorem Json.beq_iff : ∀ (a b : Json), Json.beq a b = true ↔ a = b
  | .str a, b => by cases b <;> simp [Json.beq]
  | .int a, b => by cases b <;> simp [Json.beq]
  | .bool a, b => by cases b <;> simp [Json.beq]
  | .list xs, b => by
      cases b <;> simp [Json.beq]
      exact Json.beqList_iff xs _
  | .obj fs, b => by
      cases b <;> simp [Json.beq]
      exact Json.beqFields_iff fs _

theorem Json.beqList_iff : ∀ (xs ys : List Json), Json.beqList xs ys = true ↔ xs = ys
  | [], ys => by cases ys <;> simp [Json.beqList]
  | x :: xs, ys => by
      cases ys with
      | nil => simp [Json.beqList]
      | cons y ys =>
        simp [Json.beqList, Json.beq_iff x y, Json.beqList_iff xs ys]

theorem Json.beqFields_iff : ∀ (fs gs : List (String × Json)), Json.beqFields fs gs = true ↔ fs = gs
  | [], gs => by cases gs <;> simp [Json.beqFields]
  | (k, v) :: fs, gs => by
      cases gs with
      | nil => simp [Json.beqFields]
      | cons g gs =>
        cases g with
        | mk l w =>
          simp [Json.beqFields, Json.beq_iff v w, Json.beqFields_iff fs gs, and_assoc]

end

instance : BEq Json := ⟨Json.beq⟩

instance : LawfulBEq Json where
  eq_of_beq h := (Json.beq_iff _ _).1 h
  rfl := (Json.beq_iff _ _).2 rfl

instance : DecidableEq Json :=
  fun a b => decidable_of_iff (Json.beq a b = true) (Json.beq_iff a b)

instance {ε α : Type} [DecidableEq ε] [DecidableEq α] : DecidableEq (Except ε α) :=
  fun x y =>
    match x, y with
    | .ok a, .ok b =>
      if h : a = b then isTrue (by rw [h]) else isFalse (by simp [h])
    | .error a, .error b =>
      if h : a = b then isTrue (by rw [h]) else isFalse (by simp [h])
    | .ok _, .error _ => isFalse (by simp)
    | .error _, .ok _ => isFalse (by simp)

/-- Python truthiness (`if not x`) for the modelled values: empty
string/list/dict, `0` and `False` are falsy. -/
def truthy : Json → Bool
  | .str s => !s.isEmpty
  | .int n => n != 0
  | .bool b => b
  | .list xs => !xs.isEmpty
  | .obj fs => !fs.isEmpty

/-- Whether a Python value is hashable (usable as a dict key / set
element): lists and dicts are not. -/
def hashable : Json → Bool
  | .list _ => false
  | .obj _ => false
  | _ => true

/-- The Python exceptions the two modules can raise (beyond what they
catch).  `recursionError` stands for Python's RecursionError and is used
as the out-of-fuel marker of the one fuel-indexed definition. -/
inductive PyErr where
  | keyError (k : Json)
  | typeError
  | attributeError
  | recursionError
  deriving DecidableEq

/-- `d[k]` on a Python value: a KeyError on a dict without the key, a
TypeError on a non-dict (string keys only, as in the source). -/
def getItem (j : Json) (k : String) : Except PyErr Json :=
  match j with
  | .obj fs =>
    match fs.lookup k with
    | some v => .ok v
    | none => .error (.keyError (.str k))
  | _ => .error .typeError

theorem lookup_sizeOf {fs : List (String × Json)} {k : String} {v : Json}
    (h : fs.lookup k = some v) : sizeOf v < sizeOf fs := by
  induction fs with
  | nil => simp [List.lookup] at h
  | cons hd tl ih =>
    rw [List.lookup] at h
    cases hk : k == hd.1 with
    | true =>
      simp only [hk] at h
      cases h
      cases hd with
      | mk a b => simp; omega
    | false =>
      simp only [hk] at h
      have := ih h
      cases hd with
      | mk a b => simp; omega

theorem getItem_sizeOf {j : Json} {k : String} {v : Json}
    (h : getItem j k = .ok v) : sizeOf v < sizeOf j := by
  cases j with
  | obj fs =>
    rw [getItem] at h
    cases hv : fs.lookup k with
    | none => rw [hv] at h; cases h
    | some w =>
      rw [hv] at h
      cases h
      have := lookup_sizeOf hv
      simp
      omega
  | str s => cases h
  | int n => cases h
  | bool b => cases h
  | list xs => cases h

/-- The severity levels used by the two modules' loggers. -/
inductive LogLevel where
  | info
  | error
  | warning
  deriving DecidableEq

namespace EventValidator

/-! Model of `desafios/exercicio1/event_validator.py` (class `Validation`).
`self.event` is passed explicitly as `self_event`; an optional Python
argument `event: dict = None` is an `Option Json` (`none` = Python
`None`). -/

/-- The Python runtime types occurring in the validator's TYPE_MAPPING. -/
inductive PyType where
  | str
  | int
  | dict
  | bool
  deriving DecidableEq

/-- Python `isinstance` restricted to the modelled values and the four
mapped types.  `bool` is a subclass of `int` in Python, so a boolean is
an instance of `int` (but an int is not an instance of `bool`). -/
def isinstance : Json → PyType → Bool
  | .str _, .str => true
  | .int _, .int => true
  | .bool _, .int => true
  | .bool _, .bool => true
  | .obj _, .dict => true
  | _, _ => false

/-- `TYPE_MAPPING = {"string": str, "integer": int, "object": dict,
"boolean": bool}` -/
def TYPE_MAPPING : List (String × PyType) :=
  [("string", .str), ("integer", .int), ("object", .dict), ("boolean", .bool)]

/-- The validator's log events, one constructor per distinct logger call
site (message text abstracted, payload kept where a claim inspects it). -/
inductive VLog where
  | infoNotEmpty
  | errEmptyEvent
  | infoStructureOk
  | errWrongStructure
  | errNoRequiredKey
  | errMissingFields (missing : List Json)
  | errExtraFields (extra : List Json)
  | infoFieldsOk
  | errTypeNotFound (t : Json)
  | errTypeMismatch (field : String)
  | infoContentOk
  deriving DecidableEq

/-- Severity of each validator log event, matching the `logger.info` /
`logger.error` call used at the corresponding site. -/
def VLog.level : VLog → LogLevel
  | .infoNotEmpty | .infoStructureOk | .infoFieldsOk | .infoContentOk => .info
  | _ => .error

/-- `Validation._get_custom_type`.  A falsy (absent or empty) override
mapping is replaced by the module-level TYPE_MAPPING; a KeyError from the
lookup is caught and logged, returning Python `None` (`Option.none`); an
unhashable key raises an uncaught TypeError. -/
def _get_custom_type (custom_type : Json)
    (custom_type_mapping : Option (List (String × PyType))) :
    Except PyErr (Option PyType) × List VLog :=
  let m := match custom_type_mapping with
    | none => TYPE_MAPPING
    | some l => if l.isEmpty then TYPE_MAPPING else l
  if hashable custom_type then
    match custom_type with
    | .str s =>
      match m.lookup s with
      | some t => (.ok (some t), [])
      | none => (.ok none, [.errTypeNotFound custom_type])
    | _ => (.ok none, [.errTypeNotFound custom_type])
  else
    (.error .typeError, [])

/-- Python `set(x)`: a list of hashable elements, the characters of a
string, or the keys of a dict; TypeError otherwise.  The result is kept
as a list — only membership and emptiness are ever used of it, so
duplicate elements are harmless. -/
def pySet : Json → Except PyErr (List Json)
  | .list xs => if xs.all hashable then .ok xs else .error .typeError
  | .str s => .ok (s.toList.map (fun c => Json.str (String.singleton c)))
  | .obj fs => .ok (fs.map (fun p => Json.str p.1))
  | .int _ => .error .typeError
  | .bool _ => .error .typeError

/-- The `if not event: event = self.event` prologue shared by
`compare_event_fields` and `validate_event_content`: `None` or any falsy
argument is silently replaced by the constructor's event. -/
def substEvent (self_event : Json) (arg : Option Json) : Json :=
  match arg with
  | none => self_event
  | some e => if truthy e then e else self_event

/-- `Validation.validate_event_not_empty`. -/
def validate_event_not_empty (self_event : Json) : Bool × List VLog :=
  if truthy self_event then (true, [.infoNotEmpty]) else (false, [.errEmptyEvent])

/-- `Validation.validate_event_data_structure`. -/
def validate_event_data_structure (self_event : Json) : Bool × List VLog :=
  match self_event with
  | .obj _ => (true, [.infoStructureOk])
  | _ => (false, [.errWrongStructure])

/-- `Validation.compare_event_fields`.  Only the KeyError of
`schema["required"]` is caught; every other fault (a non-dict schema, an
unhashable `required` entry, a non-dict event) propagates. -/
def compare_event_fields (self_event : Json) (schema : Json) (arg : Option Json) :
    Except PyErr Bool × List VLog :=
  let event := substEvent self_event arg
  match getItem schema "required" with
  | .error (.keyError _) => (.ok false, [.errNoRequiredKey])
  | .error e => (.error e, [])
  | .ok reqJson =>
    match pySet reqJson with
    | .error e => (.error e, [])
    | .ok required_fields =>
      match event with
      | .obj fs =>
        let events_fields := fs.map (fun p => Json.str p.1)
        let missing_required_fields :=
          required_fields.filter (fun r => !(events_fields.contains r))
        let fields_not_required :=
          events_fields.filter (fun k => !(required_fields.contains k))
        if !missing_required_fields.isEmpty then
          (.ok false, [.errMissingFields missing_required_fields])
        else if !fields_not_required.isEmpty then
          (.ok false, [.errExtraFields fields_not_required])
        else
          (.ok true, [.infoFieldsOk])
      | _ => (.error .attributeError, [])

mutual

/-- `Validation.validate_event_content`.  The substituted event is the
one passed on to `compare_event_fields`, as in the source; the per-field
loop is `validateFields`. -/
def validate_event_content (self_event : Json) (schema : Json) (arg : Option Json) :
    Except PyErr Bool × List VLog :=
  let event := substEvent self_event arg
  match compare_event_fields self_event schema (some event) with
  | (.error e, logs) => (.error e, logs)
  | (.ok false, logs) => (.ok false, logs)
  | (.ok true, logs) =>
    match event with
    | .obj fs =>
      let r := validateFields self_event schema fs
      (r.1, logs ++ r.2)
    | _ => (.error .attributeError, logs)
termination_by (sizeOf schema, 1, 0)

/-- The `for key, value in event.items()` loop of
`validate_event_content`: `schema["properties"][key]["type"]` is looked
up with no handler (KeyError/TypeError propagate), an unknown type name
returns `False` (logged inside `_get_custom_type`), a type mismatch
returns `False` with an error log, and a dict-valued field returns the
nested recursive result immediately, abandoning the remaining fields. -/
def validateFields (self_event : Json) (schema : Json)
    (fields : List (String × Json)) : Except PyErr Bool × List VLog :=
  match fields with
  | [] => (.ok true, [.infoContentOk])
  | (key, value) :: rest =>
    match h1 : getItem schema "properties" with
    | .error e => (.error e, [])
    | .ok props =>
      match h2 : getItem props key with
      | .error e => (.error e, [])
      | .ok fieldSpec =>
        match getItem fieldSpec "type" with
        | .error e => (.error e, [])
        | .ok typeJson =>
          match _get_custom_type typeJson none with
          | (.error e, logs) => (.error e, logs)
          | (.ok none, logs) => (.ok false, logs)
          | (.ok (some pyty), logs) =>
            if isinstance value pyty = false then
              (.ok false, logs ++ [.errTypeMismatch key])
            else if isinstance value .dict then
              let r := validate_event_content self_event fieldSpec (some value)
              (r.1, logs ++ r.2)
            else
              let r := validateFields self_event schema rest
              (r.1, logs ++ r.2)
termination_by (sizeOf schema, 0, sizeOf fields)
decreasing_by
  · simp_wf
    have hp := getItem_sizeOf h1
    have hf := getItem_sizeOf h2
    exact Prod.Lex.left _ _ (by omega)
  · simp_wf
    exact Prod.Lex.right _ (Prod.Lex.right _ (by simp))

end

/-- One loop step of `validate_event_content` passes on a non-dict value:
every schema lookup succeeds, the resolved runtime type matches the
value, and the value is not a nested mapping (so the loop moves on to the
next field).  Decidable; used to state C1. -/
def fieldPassesScalar (schema : Json) (key : String) (value : Json) : Bool :=
  match getItem schema "properties" with
  | .error _ => false
  | .ok props =>
    match getItem props key with
    | .error _ => false
    | .ok fieldSpec =>
      match getItem fieldSpec "type" with
      | .error _ => false
      | .ok typeJson =>
        match _get_custom_type typeJson none with
        | (.ok (some pyty), _) => isinstance value pyty && !(isinstance value .dict)
        | _ => false

/-- One loop step of `validate_event_content` reaches the recursive call:
every schema lookup succeeds, the resolved runtime type matches, and the
value is a nested mapping.  Decidable; used to state C1. -/
def fieldEntersNested (schema : Json) (key : String) (value : Json) : Bool :=
  match getItem schema "properties" with
  | .error _ => false
  | .ok props =>
    match getItem props key with
    | .error _ => false
    | .ok fieldSpec =>
      match getItem fieldSpec "type" with
      | .error _ => false
      | .ok typeJson =>
        match _get_custom_type typeJson none with
        | (.ok (some pyty), _) => isinstance value pyty && isinstance value .dict
        | _ => false

end EventValidator

/-- Python `sep.join(xs)`. -/
def strJoin (sep : String) : List String → String
  | [] => ""
  | [x] => x
  | x :: xs => x ++ sep ++ strJoin sep xs

mutual

/-- Python `str()` of a modelled value: strings unchanged, `True`/`False`
for booleans, decimal text for ints, repr-style rendering for containers.
(The repr quoting of strings is simplified: quotes inside a string are
not escaped; the repository only ever stringifies scalars.) -/
def pyStr : Json → String
  | .str s => s
  | .int n => toString n
  | .bool b => if b then "True" else "False"
  | .list xs => "[" ++ strJoin ", " (pyReprList xs) ++ "]"
  | .obj fs => "\x7b" ++ strJoin ", " (pyReprFields fs) ++ "\x7d"

def pyRepr : Json → String
  | .str s => "\x27" ++ s ++ "\x27"
  | .int n => toString n
  | .bool b => if b then "True" else "False"
  | .list xs => "[" ++ strJoin ", " (pyReprList xs) ++ "]"
  | .obj fs => "\x7b" ++ strJoin ", " (pyReprFields fs) ++ "\x7d"

def pyReprList : List Json → List String
  | [] => []
  | x :: xs => pyRepr x :: pyReprList xs

def pyReprFields : List (String × Json) → List String
  | [] => []
  | (k, v) :: fs => ("\x27" ++ k ++ "\x27: " ++ pyRepr v) :: pyReprFields fs

end

namespace JsonSchemaToHive

/-! Model of `desafios/exercicio2/json_schema_to_hive.py` (classes `Query`
and `Schema`).  The constructor state `tb_name`/`db_name` is passed
explicitly; every optional Python parameter is an `Option`. -/

/-- `TYPE_MAPPING = {"string": "varchar", "integer": "tinyint",
"object": "struct", "boolean": "boolean"}` -/
def TYPE_MAPPING : List (String × String) :=
  [("string", "varchar"), ("integer", "tinyint"),
   ("object", "struct"), ("boolean", "boolean")]

/-- The generator's log events: the many `logger.info` records are
abstracted into `.info`; the clustering warning and the unknown-type
error are kept distinct because claims inspect them. -/
inductive QLog where
  | info
  | warnClusteringIncomplete
  | errTypeNotFound (t : Json)
  deriving DecidableEq

/-- Severity of each generator log event. -/
def QLog.level : QLog → LogLevel
  | .info => .info
  | .warnClusteringIncomplete => .warning
  | .errTypeNotFound _ => .error

/-- `Query._get_custom_type`: same shape as the validator's, mapping to
Hive column-type keywords. -/
def _get_custom_type (custom_type : Json)
    (custom_type_mapping : Option (List (String × String))) :
    Except PyErr (Option String) × List QLog :=
  let m := match custom_type_mapping with
    | none => TYPE_MAPPING
    | some l => if l.isEmpty then TYPE_MAPPING else l
  if hashable custom_type then
    match custom_type with
    | .str s =>
      match m.lookup s with
      | some t => (.ok (some t), [])
      | none => (.ok none, [.errTypeNotFound custom_type])
    | _ => (.ok none, [.errTypeNotFound custom_type])
  else
    (.error .typeError, [])

/-- f-string rendering of `_get_custom_type`'s result inside
`format_table_columns`: the keyword, or the text `None` when the lookup
failed and returned Python `None`. -/
def optTypeText : Option String → String
  | some s => s
  | none => "None"

/-- `Query.format_table_columns`.  The source's `except NameError`
handlers are unreachable dead code: `value['type']`,
`value['properties']` and `value['description']` raise KeyError — not
NameError — when the key is missing, so that exception propagates
uncaught.  An unknown (but present) type name is rendered as the text
`None` after an error log from `_get_custom_type`. -/
def format_table_columns (col_dict : List (String × Json)) (separator : String) :
    Except PyErr String × List QLog :=
  match col_dict with
  | [] => (.ok "", [])
  | (key, value) :: rest =>
    match getItem value "type" with
    | .error e => (.error e, [])
    | .ok typeJson =>
      match _get_custom_type typeJson none with
      | (.error e, logs) => (.error e, logs)
      | (.ok tyOpt, logs) =>
        let col_data := key ++ separator ++ " " ++ optTypeText tyOpt
        if typeJson = Json.str "object" then
          match hp : getItem value "properties" with
          | .error e => (.error e, logs)
          | .ok props =>
            match hq : props with
            | .obj pfs =>
              match format_table_columns pfs ":" with
              | (.error e, logs2) => (.error e, logs ++ logs2)
              | (.ok obj_columns, logs2) =>
                let col_data1 := col_data ++ " <" ++ obj_columns ++ ">"
                match getItem value "description" with
                | .error e => (.error e, logs ++ logs2)
                | .ok comment =>
                  let col_data2 :=
                    if truthy comment then
                      col_data1 ++ " COMMENT \x27" ++ pyStr comment ++ "\x27"
                    else col_data1
                  match format_table_columns rest separator with
                  | (.error e, logs3) => (.error e, logs ++ logs2 ++ logs3)
                  | (.ok restStr, logs3) =>
                    match rest with
                    | [] => (.ok col_data2, logs ++ logs2 ++ logs3)
                    | _ => (.ok (col_data2 ++ ",\n" ++ restStr), logs ++ logs2 ++ logs3)
            | _ => (.error .attributeError, logs)
        else
          match getItem value "description" with
          | .error e => (.error e, logs)
          | .ok comment =>
            let col_data2 :=
              if truthy comment then
                col_data ++ " COMMENT \x27" ++ pyStr comment ++ "\x27"
              else col_data
            match format_table_columns rest separator with
            | (.error e, logs3) => (.error e, logs ++ logs3)
            | (.ok restStr, logs3) =>
              match rest with
              | [] => (.ok col_data2, logs ++ logs3)
              | _ => (.ok (col_data2 ++ ",\n" ++ restStr), logs ++ logs3)
termination_by sizeOf col_dict
decreasing_by
  · have h1 := getItem_sizeOf hp
    subst hq
    simp_wf
    simp at h1
    omega
  all_goals simp_wf

/-- `Query.format_table_properties`. -/
def format_table_properties (tb_properties : List (String × Json)) : String :=
  strJoin "," (tb_properties.map
    (fun p => "\x27" ++ p.1 ++ "\x27 = \x27" ++ pyStr p.2 ++ "\x27"))

/-- Truthiness of an optional string argument. -/
def optStrTruthy : Option String → Bool
  | none => false
  | some s => !s.isEmpty

/-- Truthiness of an optional dict argument. -/
def optDictTruthy : Option (List (String × Json)) → Bool
  | none => false
  | some d => !d.isEmpty

/-- Truthiness of an optional list-of-names argument. -/
def optListTruthy : Option (List String) → Bool
  | none => false
  | some l => !l.isEmpty

/-- Truthiness of an optional integer argument (`0` is falsy). -/
def optIntTruthy : Option Int → Bool
  | none => false
  | some n => n != 0

/-- The `(<columns>)` step of `create_table` (empty when `col_params` is
falsy). -/
def colsClause (col_params : Option (List (String × Json))) :
    Except PyErr String × List QLog :=
  match col_params with
  | some cd =>
    if !cd.isEmpty then
      match format_table_columns cd "" with
      | (.error e, logs) => (.error e, logs)
      | (.ok s, logs) => (.ok ("\n(" ++ s ++ ")"), logs ++ [.info])
    else (.ok "", [])
  | none => (.ok "", [])

/-- The `COMMENT` step of `create_table`. -/
def commentClause (tb_desc : Option String) : Except PyErr String × List QLog :=
  match tb_desc with
  | some d =>
    if !d.isEmpty then (.ok ("\nCOMMENT \x27" ++ d ++ "\x27"), [.info])
    else (.ok "", [])
  | none => (.ok "", [])

/-- The `PARTITIONED BY` step of `create_table`. -/
def partitionClause (partition_params : Option (List (String × Json))) :
    Except PyErr String × List QLog :=
  match partition_params with
  | some pd =>
    if !pd.isEmpty then
      match format_table_columns pd "" with
      | (.error e, logs) => (.error e, logs)
      | (.ok s, logs) => (.ok ("\nPARTITIONED BY (" ++ s ++ ")"), logs ++ [.info])
    else (.ok "", [])
  | none => (.ok "", [])

/-- The `CLUSTERED BY ... INTO n BUCKETS` step of `create_table`: the
clause is emitted only when both arguments are truthy; when only one of
the two is truthy a warning is logged and nothing is emitted. -/
def clusteringClause (clustering_params : Option (List String))
    (num_buckets : Option Int) : Except PyErr String × List QLog :=
  if optListTruthy clustering_params || optIntTruthy num_buckets then
    if optListTruthy clustering_params && optIntTruthy num_buckets then
      match clustering_params, num_buckets with
      | some cps, some n =>
        (.ok ("\nCLUSTERED BY (" ++ strJoin "," cps ++ ") INTO " ++
          toString n ++ " BUCKETS"), [.info])
      | _, _ => (.ok "", [])
    else
      (.ok "", [.warnClusteringIncomplete])
  else
    (.ok "", [])

/-- The `ROW FORMAT` step of `create_table`. -/
def rowFormatClause (row_format : Option String) : Except PyErr String × List QLog :=
  match row_format with
  | some r =>
    if !r.isEmpty then (.ok ("\nROW FORMAT \x27" ++ r ++ "\x27"), [.info])
    else (.ok "", [])
  | none => (.ok "", [])

/-- The `STORED AS` step of `create_table`. -/
def storedAsClause (file_format : Option String) : Except PyErr String × List QLog :=
  match file_format with
  | some f =>
    if !f.isEmpty then (.ok ("\nSTORED AS " ++ f), [.info])
    else (.ok "", [])
  | none => (.ok "", [])

/-- The `WITH SERDEPROPERTIES` step of `create_table`. -/
def serdeClause (serde_properties : Option (List (String × Json))) :
    Except PyErr String × List QLog :=
  match serde_properties with
  | some sp =>
    if !sp.isEmpty then
      (.ok ("\nWITH SERDEPROPERTIES (" ++ format_table_properties sp ++ ")"), [.info])
    else (.ok "", [])
  | none => (.ok "", [])

/-- The `LOCATION` step of `create_table`. -/
def locationClause (location : Option String) : Except PyErr String × List QLog :=
  match location with
  | some l =>
    if !l.isEmpty then (.ok ("\nLOCATION \x27" ++ l ++ "\x27"), [.info])
    else (.ok "", [])
  | none => (.ok "", [])

/-- The `TBLPROPERTIES` step of `create_table`. -/
def tblPropsClause (tbl_properties : Option (List (String × Json))) :
    Except PyErr String × List QLog :=
  match tbl_properties with
  | some tp =>
    if !tp.isEmpty then
      (.ok ("\nTBLPROPERTIES (" ++ format_table_properties tp ++ ")"), [.info])
    else (.ok "", [])
  | none => (.ok "", [])

/-- Folds the optional clause results over the base statement in the
source's fixed order, aborting at the first uncaught exception (the logs
emitted so far are kept); on success the two closing info logs of
`create_table` are appended. -/
def appendClauses (q : String) (logs : List QLog) :
    List (Except PyErr String × List QLog) → Except PyErr String × List QLog
  | [] => (.ok q, logs ++ [.info, .info])
  | (r, l) :: rest =>
    match r with
    | .error e => (.error e, logs ++ l)
    | .ok s => appendClauses (q ++ s) (logs ++ l) rest

/-- `Query.create_table`: the base statement followed by each optional
clause, appended in the source's fixed order. -/
def create_table (db_name tb_name : String)
    (col_params : Option (List (String × Json)))
    (tb_desc : Option String)
    (partition_params : Option (List (String × Json)))
    (clustering_params : Option (List String))
    (num_buckets : Option Int)
    (row_format : Option String)
    (file_format : Option String)
    (serde_properties : Option (List (String × Json)))
    (location : Option String)
    (tbl_properties : Option (List (String × Json))) :
    Except PyErr String × List QLog :=
  appendClauses
    ("CREATE EXTERNAL TABLE IF NOT EXISTS " ++ db_name ++ "." ++ tb_name)
    [.info, .info]
    [colsClause col_params,
     commentClause tb_desc,
     partitionClause partition_params,
     clusteringClause clustering_params num_buckets,
     rowFormatClause row_format,
     storedAsClause file_format,
     serdeClause serde_properties,
     locationClause location,
     tblPropsClause tbl_properties]

/-- Python dict assignment `d[k] = v`: replaces the value in place
(keeping the key's position) or appends a new key at the end. -/
def dictSet (fs : List (String × Json)) (k : String) (v : Json) :
    List (String × Json) :=
  if fs.any (fun p => p.1 == k) then
    fs.map (fun p => if p.1 == k then (k, v) else p)
  else fs ++ [(k, v)]

/-- The dict comprehension `{key: schema["properties"][key] for key in
filtered_col}` of `Schema.get_col_data`: a KeyError on an absent column
propagates uncaught. -/
def filterProps (props : Json) : List String → List (String × Json) →
    Except PyErr (List (String × Json))
  | [], acc => .ok acc
  | c :: cs, acc =>
    match getItem props c with
    | .error e => .error e
    | .ok v => filterProps props cs (dictSet acc c v)

mutual

/-- `Schema.get_col_data`.  Returns the collected column dict together
with the post-call state of the schema object the call operated on: the
`if filtered_col:` branch executes `schema["properties"] = {...}`, an
in-place mutation of the caller's schema (of `self.schema` when no
schema argument was given).  The general recursion is fuel-indexed —
the source always terminates on data it can actually reach, and
exhausted fuel plays the role of Python's RecursionError. -/
def get_col_data (fuel : Nat) (self_schema : Json) (schemaArg : Option Json)
    (filtered_col : Option (List String)) : Except PyErr (Json × Json) × List QLog :=
  match fuel with
  | 0 => (.error .recursionError, [])
  | fuel + 1 =>
    let schema0 := match schemaArg with
      | none => self_schema
      | some s => if truthy s then s else self_schema
    match filtered_col with
    | some cols =>
      if !cols.isEmpty then
        match getItem schema0 "properties" with
        | .error e => (.error e, [.info])
        | .ok props =>
          match filterProps props cols [] with
          | .error e => (.error e, [.info])
          | .ok newProps =>
            match schema0 with
            | .obj sfs =>
              getColMain fuel self_schema
                (.obj (dictSet sfs "properties" (.obj newProps))) [.info, .info]
            | _ => (.error .typeError, [.info])
      else getColMain fuel self_schema schema0 [.info]
    | none => getColMain fuel self_schema schema0 [.info]

/-- The part of `Schema.get_col_data` after the optional filtering step:
iterate the (possibly replaced) `schema["properties"]`. -/
def getColMain (fuel : Nat) (self_schema : Json) (schema1 : Json)
    (logs0 : List QLog) : Except PyErr (Json × Json) × List QLog :=
  match fuel with
  | 0 => (.error .recursionError, logs0)
  | fuel + 1 =>
    match getItem schema1 "properties" with
    | .error e => (.error e, logs0)
    | .ok props =>
      match props with
      | .obj pfs =>
        match getColLoop fuel self_schema pfs with
        | (.error e, logs) => (.error e, logs0 ++ logs)
        | (.ok cols, logs) => (.ok (.obj cols, schema1), logs0 ++ logs ++ [.info])
      | _ => (.error .attributeError, logs0)

/-- The `for key, value in schema["properties"].items()` loop of
`Schema.get_col_data`: `value["type"]` and `value["description"]` are
looked up with no handler, and an object-typed value triggers the nested
recursive call `self.get_col_data(schema=value)` (no filter, hence no
mutation below the top level). -/
def getColLoop (fuel : Nat) (self_schema : Json) (items : List (String × Json)) :
    Except PyErr (List (String × Json)) × List QLog :=
  match fuel with
  | 0 => (.error .recursionError, [])
  | fuel + 1 =>
    match items with
    | [] => (.ok [], [])
    | (key, value) :: rest =>
      match getItem value "type" with
      | .error e => (.error e, [])
      | .ok t =>
        match getItem value "description" with
        | .error e => (.error e, [])
        | .ok d =>
          if t = Json.str "object" then
            match get_col_data fuel self_schema (some value) none with
            | (.error e, logs) => (.error e, logs)
            | (.ok (sub, _post), logs) =>
              match getColLoop fuel self_schema rest with
              | (.error e, logs2) => (.error e, logs ++ logs2)
              | (.ok restCols, logs2) =>
                (.ok ((key, Json.obj
                    [("type", t), ("description", d), ("properties", sub)]) :: restCols),
                  logs ++ logs2)
          else
            match getColLoop fuel self_schema rest with
            | (.error e, logs2) => (.error e, logs2)
            | (.ok restCols, logs2) =>
              (.ok ((key, Json.obj [("type", t), ("description", d)]) :: restCols),
                logs2)

end

end JsonSchemaToHive

namespace EventValidator

/-- Example document for C1's witness: two nested-mapping fields; the
first (`a`) satisfies its nested schema, the second (`b`) would fail its
nested string check. -/
def exFirstNestedSelf : Json :=
  .obj [("a", .obj [("x", .str "s")]), ("b", .obj [("x", .int 5)])]

/-- Nested field spec shared by `exFirstNestedSchema`: an object field
holding one string field `x`. -/
def exNestedSpec : Json :=
  .obj [("type", .str "object"), ("required", .list [.str "x"]),
        ("properties", .obj [("x", .obj [("type", .str "string")])])]

/-- Example schema for C1's witness: `a` and `b` are both object fields
with the same nested spec. -/
def exFirstNestedSchema : Json :=
  .obj [("required", .list [.str "a", .str "b"]),
        ("properties", .obj [("a", exNestedSpec), ("b", exNestedSpec)])]

end EventValidator

/-! ## Claim theorems -/

/-- C10: calling either module's `_get_custom_type` with an empty mapping
as the per-call override behaves identically to calling it with no
override — any falsy override is replaced by the module-level
TYPE_MAPPING — so an empty override can never make every type unknown
(witnessed on `"string"` for both modules). -/
theorem get_custom_type_empty_override_eq_default :
    (∀ t : Json, EventValidator._get_custom_type t (some []) =
      EventValidator._get_custom_type t none) ∧
    (∀ t : Json, JsonSchemaToHive._get_custom_type t (some []) =
      JsonSchemaToHive._get_custom_type t none) ∧
    (EventValidator._get_custom_type (.str "string") (some [])).1 =
      .ok (some .str) ∧
    (JsonSchemaToHive._get_custom_type (.str "string") (some [])).1 =
      .ok (some "varchar") := by
  refine ⟨fun t => ?_, fun t => ?_, by decide, rfl⟩
  · simp [EventValidator._get_custom_type]
  · simp [JsonSchemaToHive._get_custom_type]

/-- C8: `format_table_properties` renders a property mapping as the
comma-joined sequence of `'key' = 'value'` pairs, each value rendered by
its textual representation; the boolean `True` renders as the literal
text `True`, so `{"has_encrypted_data": True}` yields
`'has_encrypted_data' = 'True'`. -/
theorem format_table_properties_spec :
    (∀ (k : String) (v : Json) (rest : List (String × Json)),
      JsonSchemaToHive.format_table_properties ((k, v) :: rest) =
        "\x27" ++ k ++ "\x27 = \x27" ++ pyStr v ++ "\x27" ++
          (if rest.isEmpty then ""
           else "," ++ JsonSchemaToHive.format_table_properties rest)) ∧
    pyStr (.bool true) = "True" ∧
    JsonSchemaToHive.format_table_properties [("has_encrypted_data", .bool true)] =
      "\x27has_encrypted_data\x27 = \x27True\x27" := by
  refine ⟨fun k v rest => ?_, rfl, rfl⟩
  cases rest with
  | nil => simp [JsonSchemaToHive.format_table_properties, strJoin]
  | cons r rs =>
    simp only [JsonSchemaToHive.format_table_properties, List.map_cons,
      List.isEmpty_cons, Bool.false_eq_true, if_false]
    rw [show ∀ (a b : String) (t : List String),
          strJoin "," (a :: b :: t) = a ++ "," ++ strJoin "," (b :: t)
        from fun a b t => rfl]
    rw [String.append_assoc]

/-- C3 (code evidence): contrary to the claim, a field spec lacking the
`type` key (or the `description` key) makes `format_table_columns` raise
an uncaught KeyError — the `except NameError` handlers never fire — so
the well-formed sibling field `b` is never rendered and the whole table
build aborts. -/
theorem format_table_columns_missing_key_raises :
    JsonSchemaToHive.format_table_columns
        [("a", .obj [("description", .str "d")]),
         ("b", .obj [("type", .str "string"), ("description", .str "e")])] "" =
      (.error (.keyError (.str "type")), []) ∧
    JsonSchemaToHive.format_table_columns
        [("a", .obj [("type", .str "string")]),
         ("b", .obj [("type", .str "string"), ("description", .str "e")])] "" =
      (.error (.keyError (.str "description")), []) := by
  constructor <;>
    simp [JsonSchemaToHive.format_table_columns, getItem, List.lookup,
      JsonSchemaToHive._get_custom_type, hashable, JsonSchemaToHive.TYPE_MAPPING]

/-- C2 (code evidence): contrary to the claim, `get_col_data` with a
non-empty column filter reassigns `schema["properties"]` on the caller's
schema object itself: after a call filtered to column `a`, the post-call
state of the schema has lost column `b` — no defensive copy is taken. -/
theorem get_col_data_filter_mutates_schema :
    (JsonSchemaToHive.get_col_data 10
        (.obj [("properties", .obj
          [("a", .obj [("type", .str "string"), ("description", .str "da")]),
           ("b", .obj [("type", .str "string"), ("description", .str "db")])])])
        none (some ["a"])).1 =
      .ok (.obj [("a", .obj [("type", .str "string"), ("description", .str "da")])],
           .obj [("properties", .obj
             [("a", .obj [("type", .str "string"), ("description", .str "da")])])]) ∧
    Json.obj [("properties", .obj
        [("a", .obj [("type", .str "string"), ("description", .str "da")])])] ≠
      Json.obj [("properties", .obj
        [("a", .obj [("type", .str "string"), ("description", .str "da")]),
         ("b", .obj [("type", .str "string"), ("description", .str "db")])])] := by
  decide

/-- C4 (counterexample): a schema node lacking the `properties` key, on a
document that passes the field comparison, makes `validate_event_content`
raise an uncaught KeyError instead of returning a boolean failure
result. -/
theorem validate_missing_properties_raises :
    EventValidator.validate_event_content (.obj [("a", .str "x")])
        (.obj [("required", .list [.str "a"])]) none =
      (.error (.keyError (.str "properties")), [.infoFieldsOk]) := by
  simp [EventValidator.validate_event_content, EventValidator.validateFields,
    EventValidator.compare_event_fields, EventValidator.substEvent, getItem,
    EventValidator.pySet, truthy, hashable, List.lookup]

namespace EventValidator

/-- On a successful lookup, `_get_custom_type` logs nothing. -/
theorem gct_ok_some_logs {t : Json} {m : Option (List (String × PyType))}
    {x : PyType} {l : List VLog}
    (h : _get_custom_type t m = (.ok (some x), l)) : l = [] := by
  unfold _get_custom_type at h
  repeat' (first | split at h | simp only [] at h)
  all_goals simp_all

/-- On an unknown type name, `_get_custom_type` logs exactly the
unknown-type error. -/
theorem gct_ok_none_logs {t : Json} {m : Option (List (String × PyType))}
    {l : List VLog}
    (h : _get_custom_type t m = (.ok none, l)) : l = [.errTypeNotFound t] := by
  unfold _get_custom_type at h
  repeat' (first | split at h | simp only [] at h)
  all_goals simp_all

/-- Whenever `compare_event_fields` returns `False`, an error-level log
record was emitted. -/
theorem compare_false_logs_error {self_event schema : Json} {arg : Option Json}
    {logs : List VLog}
    (h : compare_event_fields self_event schema arg = (.ok false, logs)) :
    ∃ l ∈ logs, VLog.level l = .error := by
  unfold compare_event_fields at h
  repeat' (first | split at h | simp only [] at h)
  all_goals first
    | (injection h with h1 h2; subst h2; exact ⟨_, List.mem_singleton_self _, rfl⟩)
    | simp_all

end EventValidator

namespace EventValidator

/-- A loop step on a passing non-dict field leaves the result of the
remaining loop unchanged (its own logs are empty). -/
theorem validateFields_cons_scalar (self_event schema : Json) (key : String)
    (value : Json) (rest : List (String × Json))
    (h : fieldPassesScalar schema key value = true) :
    validateFields self_event schema ((key, value) :: rest) =
      validateFields self_event schema rest := by
  rw [validateFields.eq_def]
  unfold fieldPassesScalar at h
  cases h1 : getItem schema "properties" with
  | error e => simp [h1] at h
  | ok props =>
    simp only [h1] at h ⊢
    cases h2 : getItem props key with
    | error e => simp [h2] at h
    | ok fieldSpec =>
      simp only [h2] at h ⊢
      cases h3 : getItem fieldSpec "type" with
      | error e => simp [h3] at h
      | ok typeJson =>
        simp only [h3] at h ⊢
        cases h4 : _get_custom_type typeJson none with
        | mk r logs =>
          simp only [h4] at h ⊢
          cases r with
          | error e => simp at h
          | ok topt =>
            cases topt with
            | none => simp at h
            | some pyty =>
              simp only [Bool.and_eq_true, Bool.not_eq_true'] at h
              obtain ⟨hi, hd⟩ := h
              have hl : logs = [] := gct_ok_some_logs h4
              subst hl
              simp [hi, hd]

/-- A loop step on a passing dict field returns the nested recursive
result outright: the fields after it are never examined. -/
theorem validateFields_cons_nested (self_event schema : Json) (key : String)
    (value : Json) (rest : List (String × Json)) (props fieldSpec : Json)
    (h : fieldEntersNested schema key value = true)
    (hp : getItem schema "properties" = .ok props)
    (hf : getItem props key = .ok fieldSpec) :
    validateFields self_event schema ((key, value) :: rest) =
      validate_event_content self_event fieldSpec (some value) := by
  rw [validateFields.eq_def]
  unfold fieldEntersNested at h
  cases h1 : getItem schema "properties" with
  | error e => rw [h1] at hp; cases hp
  | ok props2 =>
    rw [h1] at hp
    injection hp with hpe
    subst hpe
    simp only [h1] at h ⊢
    cases h2 : getItem props2 key with
    | error e => rw [h2] at hf; cases hf
    | ok fs2 =>
      rw [h2] at hf
      injection hf with hfe
      subst hfe
      simp only [h2] at h ⊢
      cases h3 : getItem fs2 "type" with
      | error e => simp [h3] at h
      | ok typeJson =>
        simp only [h3] at h ⊢
        cases h4 : _get_custom_type typeJson none with
        | mk r logs =>
          simp only [h4] at h ⊢
          cases r with
          | error e => simp at h
          | ok topt =>
            cases topt with
            | none => simp at h
            | some pyty =>
              simp only [Bool.and_eq_true] at h
              obtain ⟨hi, hd⟩ := h
              have hl : logs = [] := gct_ok_some_logs h4
              subst hl
              simp [hi, hd]

/-- A prefix of passing non-dict fields can be dropped from the loop. -/
theorem validateFields_append_scalar (self_event schema : Json)
    (pre rest : List (String × Json))
    (hpre : pre.all (fun p => fieldPassesScalar schema p.1 p.2) = true) :
    validateFields self_event schema (pre ++ rest) =
      validateFields self_event schema rest := by
  induction pre with
  | nil => rfl
  | cons p t ih =>
    simp only [List.all_cons, Bool.and_eq_true] at hpre
    obtain ⟨hh, ht⟩ := hpre
    cases p with
    | mk k v =>
      rw [List.cons_append, validateFields_cons_scalar _ _ _ _ _ hh, ih ht]

end EventValidator

/-- C1: on a document whose (substituted) field list is
`pre ++ (key, value) :: post` where every field of `pre` passes as a
non-dict value and `(key, value)` is the first nested-mapping field (and
passes its type check), `validate_event_content` returns exactly the
result of recursing into that field's spec, whatever `post` contains:
validation of every following sibling field is abandoned.  A document
whose later sibling would fail can therefore validate as true (see the
witness). -/
theorem validate_first_nested_short_circuits
    (self_event schema : Json) (arg : Option Json)
    (pre post : List (String × Json)) (key : String) (value : Json)
    (props fieldSpec : Json)
    (hev : EventValidator.substEvent self_event arg = .obj (pre ++ (key, value) :: post))
    (hcmp : (EventValidator.compare_event_fields self_event schema
        (some (EventValidator.substEvent self_event arg))).1 = .ok true)
    (hpre : pre.all (fun p => EventValidator.fieldPassesScalar schema p.1 p.2) = true)
    (henter : EventValidator.fieldEntersNested schema key value = true)
    (hp : getItem schema "properties" = .ok props)
    (hf : getItem props key = .ok fieldSpec) :
    (EventValidator.validate_event_content self_event schema arg).1 =
      (EventValidator.validate_event_content self_event fieldSpec (some value)).1 := by
  rw [EventValidator.validate_event_content.eq_def]
  simp only []
  rw [hev] at hcmp ⊢
  cases hc : EventValidator.compare_event_fields self_event schema
      (some (.obj (pre ++ (key, value) :: post))) with
  | mk r logs =>
    rw [hc] at hcmp
    simp only [] at hcmp
    subst hcmp
    simp only []
    rw [EventValidator.validateFields_append_scalar _ _ _ _ hpre,
      EventValidator.validateFields_cons_nested _ _ _ _ _ _ _ henter hp hf]

/-- C1 witness: on the two-nested-field document `exFirstNestedSelf`,
every hypothesis of the theorem holds with `pre = []`,
`post = [("b", …)]`; the whole validation equals the recursion into
field `a` and returns true, although validating the abandoned sibling
`b` against its spec would return false. -/
theorem validate_first_nested_short_circuits_witness :
    EventValidator.substEvent EventValidator.exFirstNestedSelf none =
      .obj ([] ++ ("a", .obj [("x", .str "s")]) :: [("b", .obj [("x", .int 5)])]) ∧
    (EventValidator.compare_event_fields EventValidator.exFirstNestedSelf
        EventValidator.exFirstNestedSchema
        (some (EventValidator.substEvent EventValidator.exFirstNestedSelf none))).1 =
      .ok true ∧
    ([] : List (String × Json)).all
      (fun p => EventValidator.fieldPassesScalar EventValidator.exFirstNestedSchema p.1 p.2) = true ∧
    EventValidator.fieldEntersNested EventValidator.exFirstNestedSchema "a"
      (.obj [("x", .str "s")]) = true ∧
    getItem EventValidator.exFirstNestedSchema "properties" =
      .ok (.obj [("a", EventValidator.exNestedSpec), ("b", EventValidator.exNestedSpec)]) ∧
    getItem (.obj [("a", EventValidator.exNestedSpec), ("b", EventValidator.exNestedSpec)]) "a" =
      .ok EventValidator.exNestedSpec ∧
    (EventValidator.validate_event_content EventValidator.exFirstNestedSelf
        EventValidator.exFirstNestedSchema none).1 =
      (EventValidator.validate_event_content EventValidator.exFirstNestedSelf
        EventValidator.exNestedSpec (some (.obj [("x", .str "s")]))).1 ∧
    (EventValidator.validate_event_content EventValidator.exFirstNestedSelf
        EventValidator.exFirstNestedSchema none).1 = .ok true ∧
    (EventValidator.validate_event_content EventValidator.exFirstNestedSelf
        EventValidator.exNestedSpec (some (.obj [("x", .int 5)]))).1 = .ok false := by
  have happ := validate_first_nested_short_circuits
    EventValidator.exFirstNestedSelf EventValidator.exFirstNestedSchema none
    [] [("b", .obj [("x", .int 5)])] "a" (.obj [("x", .str "s")])
    (.obj [("a", EventValidator.exNestedSpec), ("b", EventValidator.exNestedSpec)])
    EventValidator.exNestedSpec
    (by decide) (by decide) (by decide) (by decide) (by decide) (by decide)
  refine ⟨by decide, by decide, by decide, by decide, by decide, by decide, happ, ?_, ?_⟩
  · rw [happ]
    simp [EventValidator.validate_event_content, EventValidator.validateFields,
      EventValidator.compare_event_fields, EventValidator.substEvent, getItem,
      EventValidator.pySet, truthy, hashable, EventValidator._get_custom_type,
      EventValidator.TYPE_MAPPING, EventValidator.isinstance,
      EventValidator.exNestedSpec, List.lookup]
  · simp [EventValidator.validate_event_content, EventValidator.validateFields,
      EventValidator.compare_event_fields, EventValidator.substEvent, getItem,
      EventValidator.pySet, truthy, hashable, EventValidator._get_custom_type,
      EventValidator.TYPE_MAPPING, EventValidator.isinstance,
      EventValidator.exNestedSpec, List.lookup]

namespace EventValidator

theorem validate_false_logs_error_aux :
    ∀ (n : Nat) (self_event schema : Json), sizeOf schema ≤ n →
      (∀ (fields : List (String × Json)) (logs : List VLog),
          validateFields self_event schema fields = (.ok false, logs) →
            ∃ l ∈ logs, VLog.level l = .error) ∧
      (∀ (arg : Option Json) (logs : List VLog),
          validate_event_content self_event schema arg = (.ok false, logs) →
            ∃ l ∈ logs, VLog.level l = .error) := by
  intro n
  induction n with
  | zero =>
    intro s sc hsz
    exact absurd hsz (by cases sc <;> simp)
  | succ n ih =>
    intro s sc hsz
    have hfields : ∀ fields logs, validateFields s sc fields = (.ok false, logs) →
        ∃ l ∈ logs, VLog.level l = .error := by
      intro fields
      induction fields with
      | nil =>
        intro logs h
        rw [validateFields.eq_def] at h
        simp at h
      | cons p rest ihf =>
        obtain ⟨key, value⟩ := p
        intro logs h
        rw [validateFields.eq_def] at h
        simp only [] at h
        split at h
        · simp at h
        · rename_i props hprops
          split at h
          · simp at h
          · rename_i fieldSpec hfs
            cases h3 : getItem fieldSpec "type" with
            | error e => simp [h3] at h
            | ok typeJson =>
              simp only [h3] at h
              cases h4 : _get_custom_type typeJson none with
              | mk r glogs =>
                simp only [h4] at h
                cases r with
                | error e => simp at h
                | ok topt =>
                  cases topt with
                  | none =>
                    injection h with ha hb
                    subst hb
                    rw [gct_ok_none_logs h4]
                    exact ⟨_, List.mem_singleton_self _, rfl⟩
                  | some pyty =>
                    simp only [] at h
                    by_cases hi : isinstance value pyty = false
                    · rw [if_pos hi] at h
                      injection h with ha hb
                      subst hb
                      refine ⟨.errTypeMismatch key, ?_, rfl⟩
                      simp
                    · rw [if_neg hi] at h
                      by_cases hd : isinstance value PyType.dict = true
                      · rw [if_pos hd] at h
                        injection h with ha hb
                        subst hb
                        have hsz2 : sizeOf fieldSpec ≤ n := by
                          have g1 := getItem_sizeOf hprops
                          have g2 := getItem_sizeOf hfs
                          omega
                        have hv : validate_event_content s fieldSpec (some value) =
                            (.ok false, (validate_event_content s fieldSpec (some value)).2) := by
                          rw [← ha]
                        obtain ⟨l, hm, hl⟩ := (ih s fieldSpec hsz2).2 (some value) _ hv
                        exact ⟨l, List.mem_append_right _ hm, hl⟩
                      · rw [if_neg hd] at h
                        injection h with ha hb
                        subst hb
                        have hv : validateFields s sc rest =
                            (.ok false, (validateFields s sc rest).2) := by
                          rw [← ha]
                        obtain ⟨l, hm, hl⟩ := ihf _ hv
                        exact ⟨l, List.mem_append_right _ hm, hl⟩
    refine ⟨hfields, ?_⟩
    intro arg logs h
    rw [validate_event_content.eq_def] at h
    simp only [] at h
    cases hc : compare_event_fields s sc (some (substEvent s arg)) with
    | mk r clogs =>
      simp only [hc] at h
      cases r with
      | error e => simp at h
      | ok b =>
        cases b with
        | false =>
          injection h with ha hb
          subst hb
          exact compare_false_logs_error hc
        | true =>
          cases hev : substEvent s arg with
          | obj fs =>
            simp only [hev] at h
            injection h with ha hb
            subst hb
            have hv : validateFields s sc fs =
                (.ok false, (validateFields s sc fs).2) := by
              rw [← ha]
            obtain ⟨l, hm, hl⟩ := hfields fs _ hv
            exact ⟨l, List.mem_append_right _ hm, hl⟩
          | str v => simp [hev] at h
          | int v => simp [hev] at h
          | bool v => simp [hev] at h
          | list v => simp [hev] at h

end EventValidator

/-- C4 (amended): handled validator-side errors are reported as the
boolean result `False` together with an error-level log record — a
schema node without the `required` key yields exactly
`(False, [missing-required log])`, and every `False` result carries at
least one error-level log — but a schema node lacking the `properties`
key (or a per-field `type` entry) after a successful field comparison
raises an uncaught KeyError instead (see the counterexample
`validate_missing_properties_raises`). -/
theorem validator_errors_logged_not_raised :
    (∀ (self_event schema : Json) (arg : Option Json) (sfs : List (String × Json)),
      schema = .obj sfs → sfs.lookup "required" = none →
        EventValidator.validate_event_content self_event schema arg =
          (.ok false, [.errNoRequiredKey])) ∧
    (∀ (self_event schema : Json) (arg : Option Json) (logs : List EventValidator.VLog),
      EventValidator.validate_event_content self_event schema arg = (.ok false, logs) →
        ∃ l ∈ logs, EventValidator.VLog.level l = .error) := by
  constructor
  · intro s sc arg sfs hobj hno
    subst hobj
    rw [EventValidator.validate_event_content.eq_def]
    simp only []
    unfold EventValidator.compare_event_fields
    simp only [getItem, hno]
  · intro s sc arg logs h
    exact (EventValidator.validate_false_logs_error_aux (sizeOf sc) s sc le_rfl).2 arg logs h

/-- C4 witness: at the schema `{}` (no `required` key) validation of the
document `{"a": "x"}` returns false with the missing-required error
log, and that log record is error-level. -/
theorem validator_errors_logged_not_raised_witness :
    EventValidator.validate_event_content (.obj [("a", .str "x")]) (.obj []) none =
      (.ok false, [.errNoRequiredKey]) ∧
    ∃ l ∈ [EventValidator.VLog.errNoRequiredKey],
      EventValidator.VLog.level l = .error := by
  refine ⟨validator_errors_logged_not_raised.1 _ _ none [] rfl rfl, ?_⟩
  exact validator_errors_logged_not_raised.2 (.obj [("a", .str "x")]) (.obj []) none
    [EventValidator.VLog.errNoRequiredKey]
    (validator_errors_logged_not_raised.1 (.obj [("a", .str "x")]) (.obj []) none [] rfl rfl)

/-- C9: a `None` event argument and an empty-mapping `{}` event argument
are interchangeable in `compare_event_fields` and
`validate_event_content` — both are falsy, so both are silently replaced
by the constructor's top-level event (third conjunct); consequently a
nested field whose value is `{}` is not rejected as empty but re-runs
validation of the whole top-level event against the nested
sub-schema. -/
theorem empty_event_argument_substituted :
    (∀ self_event schema : Json,
      EventValidator.compare_event_fields self_event schema none =
        EventValidator.compare_event_fields self_event schema (some (.obj []))) ∧
    (∀ self_event schema : Json,
      EventValidator.validate_event_content self_event schema none =
        EventValidator.validate_event_content self_event schema (some (.obj []))) ∧
    (∀ self_event : Json,
      EventValidator.substEvent self_event (some (.obj [])) = self_event) := by
  refine ⟨fun s sc => rfl, fun s sc => ?_, fun s => rfl⟩
  rw [EventValidator.validate_event_content.eq_def,
    EventValidator.validate_event_content.eq_def]
  simp [EventValidator.substEvent, truthy]

namespace EventValidator

/-- C5 (amended): with a list-valued `required` of hashable entries and a
non-empty dict event, `compare_event_fields` returns true iff the
required set equals the event's field-name set; when
required-minus-event is non-empty it returns false logging exactly one
record, the missing fields — the extra-field check is placed after it
and is never reached, so when both differences are non-empty only the
missing-field failure is reported.  An empty document does not obey the
biconditional: the `if not event` prologue replaces it by the
constructor's event, so the call behaves exactly as a call with no
document argument (first conjunct), and the comparison is made against
the constructor's event's field set instead. -/
theorem compare_event_fields_set_equality
    (self_event schema : Json) (req : List Json) (fs : List (String × Json))
    (hreq : getItem schema "required" = .ok (.list req))
    (hhash : req.all hashable = true)
    (hne : fs ≠ []) :
    (compare_event_fields self_event schema (some (.obj [])) =
      compare_event_fields self_event schema none) ∧
    ((compare_event_fields self_event schema (some (.obj fs))).1 = .ok true ↔
      (∀ x, x ∈ req ↔ x ∈ fs.map (fun p => Json.str p.1))) ∧
    ((∃ x ∈ req, x ∉ fs.map (fun p => Json.str p.1)) →
      compare_event_fields self_event schema (some (.obj fs)) =
        (.ok false, [.errMissingFields
          (req.filter (fun r => !((fs.map (fun p => Json.str p.1)).contains r)))])) := by
  refine ⟨rfl, ?_⟩
  have htr : truthy (.obj fs) = true := by
    cases fs with
    | nil => exact absurd rfl hne
    | cons a t => rfl
  have hev : substEvent self_event (some (.obj fs)) = .obj fs := by
    simp [substEvent, htr]
  have hps : pySet (.list req) = .ok req := by
    simp [pySet, hhash]
  have hbody : compare_event_fields self_event schema (some (.obj fs)) =
      (if (!(req.filter (fun r => !((fs.map (fun p => Json.str p.1)).contains r))).isEmpty) = true
       then ((.ok false, [.errMissingFields
          (req.filter (fun r => !((fs.map (fun p => Json.str p.1)).contains r)))]) :
            Except PyErr Bool × List VLog)
       else if (!((fs.map (fun p => Json.str p.1)).filter
            (fun k => !(req.contains k))).isEmpty) = true
       then (.ok false, [.errExtraFields
          ((fs.map (fun p => Json.str p.1)).filter (fun k => !(req.contains k)))])
       else (.ok true, [.infoFieldsOk])) := by
    unfold compare_event_fields
    simp only [hev, hreq, hps]
  by_cases hm : ∀ x ∈ req, x ∈ fs.map (fun p => Json.str p.1)
  · have e1 : req.filter (fun r => !((fs.map (fun p => Json.str p.1)).contains r)) = [] := by
      rw [List.filter_eq_nil_iff]
      intro a ha
      simp [hm a ha]
    by_cases hx : ∀ k ∈ fs.map (fun p => Json.str p.1), k ∈ req
    · have e2 : (fs.map (fun p => Json.str p.1)).filter (fun k => !(req.contains k)) = [] := by
        rw [List.filter_eq_nil_iff]
        intro a ha
        simp [hx a ha]
      have hcmp : compare_event_fields self_event schema (some (.obj fs)) =
          (.ok true, [.infoFieldsOk]) := by
        rw [hbody, e1, e2]
        rfl
      refine ⟨?_, ?_⟩
      · rw [hcmp]
        exact ⟨fun _ => fun x => ⟨fun h => hm x h, fun h => hx x h⟩, fun _ => rfl⟩
      · intro ⟨x, hxr, hxk⟩
        exact absurd (hm x hxr) hxk
    · obtain ⟨k, hkk, hkr⟩ : ∃ k ∈ fs.map (fun p => Json.str p.1), k ∉ req := by
        push_neg at hx
        exact hx
      have hkX : k ∈ (fs.map (fun p => Json.str p.1)).filter (fun k => !(req.contains k)) :=
        List.mem_filter.mpr ⟨hkk, by simpa using hkr⟩
      have hXne : (!((fs.map (fun p => Json.str p.1)).filter
          (fun k => !(req.contains k))).isEmpty) = true := by
        cases hXv : (fs.map (fun p => Json.str p.1)).filter (fun k => !(req.contains k)) with
        | nil => rw [hXv] at hkX; cases hkX
        | cons a t => rfl
      have hcmp : compare_event_fields self_event schema (some (.obj fs)) =
          (.ok false, [.errExtraFields
            ((fs.map (fun p => Json.str p.1)).filter (fun k => !(req.contains k)))]) := by
        rw [hbody, e1, hXne]
        rfl
      refine ⟨?_, ?_⟩
      · rw [hcmp]
        constructor
        · intro h
          exact absurd h (by simp)
        · intro hiff
          exact absurd ((hiff k).2 hkk) hkr
      · intro ⟨x, hxr, hxk⟩
        exact absurd (hm x hxr) hxk
  · obtain ⟨x, hxr, hxk⟩ : ∃ x ∈ req, x ∉ fs.map (fun p => Json.str p.1) := by
      push_neg at hm
      exact hm
    have hxM : x ∈ req.filter (fun r => !((fs.map (fun p => Json.str p.1)).contains r)) :=
      List.mem_filter.mpr ⟨hxr, by simpa using hxk⟩
    have hMne : (!(req.filter (fun r => !((fs.map (fun p => Json.str p.1)).contains r))).isEmpty)
        = true := by
      cases hMv : req.filter (fun r => !((fs.map (fun p => Json.str p.1)).contains r)) with
      | nil => rw [hMv] at hxM; cases hxM
      | cons a t => rfl
    have hcmp : compare_event_fields self_event schema (some (.obj fs)) =
        (.ok false, [.errMissingFields
          (req.filter (fun r => !((fs.map (fun p => Json.str p.1)).contains r)))]) := by
      rw [hbody, hMne]
      rfl
    refine ⟨?_, ?_⟩
    · rw [hcmp]
      constructor
      · intro h
        exact absurd h (by simp)
      · intro hiff
        exact absurd ((hiff x).1 hxr) hxk
    · intro _
      exact hcmp

end EventValidator

/-- C5 witness: required `{a, b}` against event fields `{a, c}` — both a
missing field (`b`) and an extra field (`c`) exist, and the call reports
only the missing one. -/
theorem compare_event_fields_set_equality_witness :
    getItem (.obj [("required", .list [.str "a", .str "b"])]) "required" =
      .ok (.list [.str "a", .str "b"]) ∧
    ([Json.str "a", Json.str "b"].all hashable) = true ∧
    ([("a", Json.int 1), ("c", Json.int 2)] : List (String × Json)) ≠ [] ∧
    EventValidator.compare_event_fields (.obj [])
        (.obj [("required", .list [.str "a", .str "b"])])
        (some (.obj [("a", .int 1), ("c", .int 2)])) =
      (.ok false, [.errMissingFields [.str "b"]]) := by
  refine ⟨rfl, by decide, by decide, ?_⟩
  have h := EventValidator.compare_event_fields_set_equality (.obj [])
    (.obj [("required", .list [.str "a", .str "b"])])
    [.str "a", .str "b"] [("a", .int 1), ("c", .int 2)] rfl (by decide) (by decide)
  have h2 := h.2.2 ⟨.str "b", by decide, by decide⟩
  rw [h2]
  decide

/-- C5 counterexample: the original claim fails at the empty document.
With constructor event `\x7b"a": 1\x7d` and schema
`\x7b"required": []\x7d`, the required set and the empty document's
field set are both empty — R = E — yet the call returns false: the
`if not event` prologue at line 157 replaces the empty document by the
constructor's event, whose field `a` is then reported as an extra
field. -/
theorem compare_event_fields_empty_doc_counterexample :
    (∀ x : Json, x ∈ ([] : List Json) ↔
      x ∈ (([] : List (String × Json)).map (fun p => Json.str p.1))) ∧
    getItem (.obj [("required", .list ([] : List Json))]) "required" =
      .ok (.list []) ∧
    EventValidator.compare_event_fields (.obj [("a", .int 1)])
        (.obj [("required", .list [])]) (some (.obj [])) =
      (.ok false, [.errExtraFields [.str "a"]]) := by
  refine ⟨by simp, rfl, by decide⟩

namespace JsonSchemaToHive

/-- The text a clause step contributes on success (empty on failure). -/
def clauseStr (c : Except PyErr String × List QLog) : String :=
  match c.1 with
  | .ok s => s
  | .error _ => ""

/-- Concatenated clause texts, in order. -/
def clausesStr : List (Except PyErr String × List QLog) → String
  | [] => ""
  | c :: cs => clauseStr c ++ clausesStr cs

/-- Concatenated clause logs, in order. -/
def clausesLogs : List (Except PyErr String × List QLog) → List QLog
  | [] => []
  | c :: cs => c.2 ++ clausesLogs cs

theorem appendClauses_ok {cs : List (Except PyErr String × List QLog)}
    {q : String} {logs : List QLog} {Q : String} {L : List QLog}
    (h : appendClauses q logs cs = (.ok Q, L)) :
    Q = q ++ clausesStr cs ∧ L = logs ++ clausesLogs cs ++ [.info, .info] ∧
      ∀ c ∈ cs, ∃ s, c.1 = .ok s := by
  induction cs generalizing q logs with
  | nil =>
    rw [appendClauses] at h
    injection h with h1 h2
    injection h1 with h1
    subst h1
    subst h2
    refine ⟨by simp [clausesStr], by simp [clausesLogs], by simp⟩
  | cons c cs ih =>
    obtain ⟨r, l⟩ := c
    rw [appendClauses.eq_def] at h
    cases r with
    | error e => simp at h
    | ok s =>
      simp only [] at h
      obtain ⟨h1, h2, h3⟩ := ih h
      refine ⟨?_, ?_, ?_⟩
      · rw [h1]
        simp [clausesStr, clauseStr, String.append_assoc]
      · rw [h2]
        simp [clausesLogs]
      · intro c hc
        rcases List.mem_cons.mp hc with hc | hc
        · subst hc
          exact ⟨s, rfl⟩
        · exact h3 c hc

theorem appendClauses_fst_congr {cs cs' : List (Except PyErr String × List QLog)}
    (h : List.Forall₂ (fun c c' => c.1 = c'.1) cs cs') :
    ∀ (q : String) (logs logs' : List QLog),
    (appendClauses q logs cs).1 = (appendClauses q logs' cs').1 := by
  induction h with
  | nil => intro q logs logs'; rfl
  | cons hcc htail ih =>
    intro q logs logs'
    rename_i c c' t t'
    obtain ⟨r, l⟩ := c
    obtain ⟨r', l'⟩ := c'
    simp only [] at hcc
    subst hcc
    rw [appendClauses.eq_def, appendClauses.eq_def]
    cases r with
    | error e => rfl
    | ok s => exact ih _ _ _

theorem gct_no_warn {t : Json} {m : Option (List (String × String))}
    {r : Except PyErr (Option String)} {l : List QLog}
    (h : _get_custom_type t m = (r, l)) :
    l.countP (fun x => QLog.level x == LogLevel.warning) = 0 := by
  unfold _get_custom_type at h
  repeat' (first | split at h | simp only [] at h)
  all_goals (injection h with ha hb; subst hb; rfl)

theorem size_props_le {value : Json} {pfs : List (String × Json)}
    (h1 : getItem value "properties" = .ok (.obj pfs)) {key : String}
    {rest : List (String × Json)} {n : Nat}
    (hsz : sizeOf ((key, value) :: rest) ≤ n + 1) : sizeOf pfs ≤ n := by
  have h := getItem_sizeOf h1
  simp at h hsz
  omega

theorem size_rest_le {key : String} {value : Json} {rest : List (String × Json)} {n : Nat}
    (hsz : sizeOf ((key, value) :: rest) ≤ n + 1) : sizeOf rest ≤ n := by
  simp at hsz
  omega

theorem format_warn_aux :
    ∀ (n : Nat) (cd : List (String × Json)) (sep : String) (r : Except PyErr String)
      (logs : List QLog),
      sizeOf cd ≤ n → format_table_columns cd sep = (r, logs) →
      logs.countP (fun l => QLog.level l == LogLevel.warning) = 0 := by
  intro n
  induction n with
  | zero =>
    intro cd sep r logs hsz h
    exact absurd hsz (by cases cd <;> simp)
  | succ n ih =>
    intro cd sep r logs hsz h
    rw [format_table_columns.eq_def] at h
    repeat' (first | split at h | simp only [] at h)
    all_goals (injection h with ha hb; subst hb)
    all_goals try rfl
    all_goals try simp only [List.countP_append, Nat.add_eq_zero]
    all_goals repeat' apply And.intro
    all_goals first
      | exact gct_no_warn (by assumption)
      | exact ih _ _ _ _ (size_props_le (by assumption) (by assumption)) (by assumption)
      | exact ih _ _ _ _ (size_rest_le (by assumption)) (by assumption)

/-- `format_table_columns` never logs a warning. -/
theorem format_no_warn (cd : List (String × Json)) (sep : String) :
    (format_table_columns cd sep).2.countP (fun l => QLog.level l == LogLevel.warning) = 0 :=
  format_warn_aux (sizeOf cd) cd sep (format_table_columns cd sep).1
    (format_table_columns cd sep).2 le_rfl rfl

theorem colsClause_countW (col : Option (List (String × Json))) :
    (colsClause col).2.countP (fun l => QLog.level l == LogLevel.warning) = 0 := by
  rcases col with _ | cd
  · rfl
  · have hw := format_no_warn cd ""
    simp only [colsClause]
    cases hf : format_table_columns cd "" with
    | mk fr fl =>
      rw [hf] at hw
      split
      · cases fr with
        | error e => simpa using hw
        | ok s =>
          have h0 : fl.countP (fun l => QLog.level l == LogLevel.warning) = 0 := by
            simpa using hw
          rw [List.countP_append, h0]
          rfl
      · rfl

theorem partitionClause_countW (part : Option (List (String × Json))) :
    (partitionClause part).2.countP (fun l => QLog.level l == LogLevel.warning) = 0 := by
  rcases part with _ | pd
  · rfl
  · have hw := format_no_warn pd ""
    simp only [partitionClause]
    cases hf : format_table_columns pd "" with
    | mk fr fl =>
      rw [hf] at hw
      split
      · cases fr with
        | error e => simpa using hw
        | ok s =>
          have h0 : fl.countP (fun l => QLog.level l == LogLevel.warning) = 0 := by
            simpa using hw
          rw [List.countP_append, h0]
          rfl
      · rfl

theorem commentClause_countW (d : Option String) :
    (commentClause d).2.countP (fun l => QLog.level l == LogLevel.warning) = 0 := by
  unfold commentClause
  rcases d with _ | s
  · rfl
  · simp only []
    split <;> rfl

theorem rowFormatClause_countW (d : Option String) :
    (rowFormatClause d).2.countP (fun l => QLog.level l == LogLevel.warning) = 0 := by
  unfold rowFormatClause
  rcases d with _ | s
  · rfl
  · simp only []
    split <;> rfl

theorem storedAsClause_countW (d : Option String) :
    (storedAsClause d).2.countP (fun l => QLog.level l == LogLevel.warning) = 0 := by
  unfold storedAsClause
  rcases d with _ | s
  · rfl
  · simp only []
    split <;> rfl

theorem locationClause_countW (d : Option String) :
    (locationClause d).2.countP (fun l => QLog.level l == LogLevel.warning) = 0 := by
  unfold locationClause
  rcases d with _ | s
  · rfl
  · simp only []
    split <;> rfl

theorem serdeClause_countW (d : Option (List (String × Json))) :
    (serdeClause d).2.countP (fun l => QLog.level l == LogLevel.warning) = 0 := by
  unfold serdeClause
  rcases d with _ | s
  · rfl
  · simp only []
    split <;> rfl

theorem tblPropsClause_countW (d : Option (List (String × Json))) :
    (tblPropsClause d).2.countP (fun l => QLog.level l == LogLevel.warning) = 0 := by
  unfold tblPropsClause
  rcases d with _ | s
  · rfl
  · simp only []
    split <;> rfl

theorem clusteringClause_countW (cp : Option (List String)) (nb : Option Int) :
    (clusteringClause cp nb).2.countP (fun l => QLog.level l == LogLevel.warning) =
      (if (optListTruthy cp || optIntTruthy nb) && !(optListTruthy cp && optIntTruthy nb)
       then 1 else 0) := by
  unfold clusteringClause
  by_cases h1 : (optListTruthy cp || optIntTruthy nb) = true
  · rw [if_pos h1]
    by_cases h2 : (optListTruthy cp && optIntTruthy nb) = true
    · rw [if_pos h2]
      rcases cp with _ | cps <;> rcases nb with _ | n <;>
        simp_all [optListTruthy, optIntTruthy, QLog.level]
    · rw [if_neg h2]
      simp only [Bool.not_eq_true] at h2
      simp [h1, h2, QLog.level]
  · rw [if_neg h1]
    simp only [Bool.not_eq_true] at h1
    simp [h1]

theorem clusteringClause_both {cps : List String} {n : Int}
    (h : (optListTruthy (some cps) && optIntTruthy (some n)) = true) :
    clusteringClause (some cps) (some n) =
      (.ok ("\nCLUSTERED BY (" ++ strJoin "," cps ++ ") INTO " ++
        toString n ++ " BUCKETS"), [.info]) := by
  unfold clusteringClause
  rw [if_pos, if_pos h]
  rcases Bool.and_eq_true_iff.mp h with ⟨ha, hb⟩
  rw [ha]
  rfl

theorem clusteringClause_not_both {cp : Option (List String)} {nb : Option Int}
    (h : (optListTruthy cp && optIntTruthy nb) = false) :
    (clusteringClause cp nb).1 = .ok "" := by
  unfold clusteringClause
  by_cases h1 : (optListTruthy cp || optIntTruthy nb) = true
  · rw [if_pos h1, if_neg (by rw [h]; exact Bool.false_ne_true)]
  · rw [if_neg h1]

end JsonSchemaToHive

/-- C6: when `create_table` succeeds, the `CLUSTERED BY (...) INTO n
BUCKETS` clause appears iff both `clustering_params` and `num_buckets`
are supplied with truthy values (Python treats an absent argument, `[]`
and `0` alike as not supplied); otherwise the query is exactly the one
produced with no clustering inputs at all — no clustering text — and the
build still succeeds; and exactly one warning-level record is logged
when at least one but not both of the two is supplied, zero
otherwise. -/
theorem create_table_clustering_clause_iff
    (db tb : String) (col : Option (List (String × Json))) (desc : Option String)
    (part : Option (List (String × Json))) (cp : Option (List String))
    (nb : Option Int) (rf ff : Option String) (sp : Option (List (String × Json)))
    (loc : Option String) (tp : Option (List (String × Json)))
    (Q : String) (L : List JsonSchemaToHive.QLog)
    (h : JsonSchemaToHive.create_table db tb col desc part cp nb rf ff sp loc tp =
      (.ok Q, L)) :
    ((JsonSchemaToHive.optListTruthy cp && JsonSchemaToHive.optIntTruthy nb) = true →
      ∃ cps n pre post, cp = some cps ∧ nb = some n ∧
        Q = pre ++ ("\nCLUSTERED BY (" ++ strJoin "," cps ++ ") INTO " ++
          toString n ++ " BUCKETS") ++ post) ∧
    ((JsonSchemaToHive.optListTruthy cp && JsonSchemaToHive.optIntTruthy nb) = false →
      ∃ L2, JsonSchemaToHive.create_table db tb col desc part none none rf ff sp loc tp =
        (.ok Q, L2)) ∧
    L.countP (fun l => JsonSchemaToHive.QLog.level l == LogLevel.warning) =
      (if (JsonSchemaToHive.optListTruthy cp || JsonSchemaToHive.optIntTruthy nb) &&
          !(JsonSchemaToHive.optListTruthy cp && JsonSchemaToHive.optIntTruthy nb)
       then 1 else 0) := by
  unfold JsonSchemaToHive.create_table at h
  obtain ⟨hq, hl, _hok⟩ := JsonSchemaToHive.appendClauses_ok h
  refine ⟨?_, ?_, ?_⟩
  · intro hboth
    rcases cp with _ | cps
    · simp [JsonSchemaToHive.optListTruthy] at hboth
    rcases nb with _ | n
    · simp [JsonSchemaToHive.optIntTruthy] at hboth
    refine ⟨cps, n, "CREATE EXTERNAL TABLE IF NOT EXISTS " ++ db ++ "." ++ tb ++
      JsonSchemaToHive.clauseStr (JsonSchemaToHive.colsClause col) ++
      JsonSchemaToHive.clauseStr (JsonSchemaToHive.commentClause desc) ++
      JsonSchemaToHive.clauseStr (JsonSchemaToHive.partitionClause part),
      JsonSchemaToHive.clauseStr (JsonSchemaToHive.rowFormatClause rf) ++
      JsonSchemaToHive.clauseStr (JsonSchemaToHive.storedAsClause ff) ++
      JsonSchemaToHive.clauseStr (JsonSchemaToHive.serdeClause sp) ++
      JsonSchemaToHive.clauseStr (JsonSchemaToHive.locationClause loc) ++
      JsonSchemaToHive.clauseStr (JsonSchemaToHive.tblPropsClause tp), rfl, rfl, ?_⟩
    rw [hq]
    simp only [JsonSchemaToHive.clausesStr,
      JsonSchemaToHive.clusteringClause_both hboth]
    simp [JsonSchemaToHive.clauseStr, String.append_assoc]
  · intro hnot
    have hcongr := @JsonSchemaToHive.appendClauses_fst_congr
      [JsonSchemaToHive.colsClause col, JsonSchemaToHive.commentClause desc,
        JsonSchemaToHive.partitionClause part,
        JsonSchemaToHive.clusteringClause cp nb,
        JsonSchemaToHive.rowFormatClause rf, JsonSchemaToHive.storedAsClause ff,
        JsonSchemaToHive.serdeClause sp, JsonSchemaToHive.locationClause loc,
        JsonSchemaToHive.tblPropsClause tp]
      [JsonSchemaToHive.colsClause col, JsonSchemaToHive.commentClause desc,
        JsonSchemaToHive.partitionClause part,
        JsonSchemaToHive.clusteringClause none none,
        JsonSchemaToHive.rowFormatClause rf, JsonSchemaToHive.storedAsClause ff,
        JsonSchemaToHive.serdeClause sp, JsonSchemaToHive.locationClause loc,
        JsonSchemaToHive.tblPropsClause tp]
      (by
        refine List.Forall₂.cons rfl (List.Forall₂.cons rfl (List.Forall₂.cons rfl
          (List.Forall₂.cons ?_ (List.Forall₂.cons rfl (List.Forall₂.cons rfl
          (List.Forall₂.cons rfl (List.Forall₂.cons rfl (List.Forall₂.cons rfl
          List.Forall₂.nil))))))))
        rw [JsonSchemaToHive.clusteringClause_not_both hnot]
        rfl)
      ("CREATE EXTERNAL TABLE IF NOT EXISTS " ++ db ++ "." ++ tb)
      [.info, .info] [.info, .info]
    rw [h] at hcongr
    refine ⟨(JsonSchemaToHive.create_table db tb col desc part none none rf ff sp loc tp).2, ?_⟩
    unfold JsonSchemaToHive.create_table
    have := hcongr.symm
    exact Prod.ext this rfl
  · rw [hl]
    simp only [JsonSchemaToHive.clausesLogs, List.countP_append,
      JsonSchemaToHive.colsClause_countW, JsonSchemaToHive.commentClause_countW,
      JsonSchemaToHive.partitionClause_countW, JsonSchemaToHive.clusteringClause_countW,
      JsonSchemaToHive.rowFormatClause_countW, JsonSchemaToHive.storedAsClause_countW,
      JsonSchemaToHive.serdeClause_countW, JsonSchemaToHive.locationClause_countW,
      JsonSchemaToHive.tblPropsClause_countW]
    simp [List.countP_cons, JsonSchemaToHive.QLog.level]

/-- C6 witness: supplying only `clustering_params = ["age"]` (no bucket
count) yields no clustering text, exactly one warning among the logs,
and a successful build equal to the one with no clustering inputs. -/
theorem create_table_clustering_clause_iff_witness :
    JsonSchemaToHive.create_table "db" "tb" none none none (some ["age"]) none
        none none none none none =
      (.ok "CREATE EXTERNAL TABLE IF NOT EXISTS db.tb",
       [.info, .info, .warnClusteringIncomplete, .info, .info]) ∧
    (∃ L2, JsonSchemaToHive.create_table "db" "tb" none none none none none
        none none none none none =
      (.ok "CREATE EXTERNAL TABLE IF NOT EXISTS db.tb", L2)) ∧
    ([JsonSchemaToHive.QLog.info, .info, .warnClusteringIncomplete, .info, .info].countP
      (fun l => JsonSchemaToHive.QLog.level l == LogLevel.warning)) = 1 := by
  have h : JsonSchemaToHive.create_table "db" "tb" none none none (some ["age"]) none
      none none none none none =
      (.ok "CREATE EXTERNAL TABLE IF NOT EXISTS db.tb",
       [.info, .info, .warnClusteringIncomplete, .info, .info]) := rfl
  have happ := create_table_clustering_clause_iff "db" "tb" none none none
    (some ["age"]) none none none none none none _ _ h
  exact ⟨h, happ.2.1 (by decide), by decide⟩

/-- C7: with every optional parameter absent, `create_table` returns
exactly the base statement; in general a successful build is the base
statement followed by each optional clause's text in the source's fixed
order (columns, comment, partition, clustering, row format, stored-as,
serde properties, location, table properties), every clause text being
empty when its input is falsy and otherwise starting with its clause
keyword. -/
theorem create_table_fixed_clause_order :
    (∀ db tb : String,
      JsonSchemaToHive.create_table db tb none none none none none none none
          none none none =
        (.ok ("CREATE EXTERNAL TABLE IF NOT EXISTS " ++ db ++ "." ++ tb),
          [.info, .info, .info, .info])) ∧
    (∀ (db tb : String) col desc part cp nb rf ff sp loc tp (Q : String)
        (L : List JsonSchemaToHive.QLog),
      JsonSchemaToHive.create_table db tb col desc part cp nb rf ff sp loc tp =
          (.ok Q, L) →
      Q = "CREATE EXTERNAL TABLE IF NOT EXISTS " ++ db ++ "." ++ tb ++
        JsonSchemaToHive.clauseStr (JsonSchemaToHive.colsClause col) ++
        JsonSchemaToHive.clauseStr (JsonSchemaToHive.commentClause desc) ++
        JsonSchemaToHive.clauseStr (JsonSchemaToHive.partitionClause part) ++
        JsonSchemaToHive.clauseStr (JsonSchemaToHive.clusteringClause cp nb) ++
        JsonSchemaToHive.clauseStr (JsonSchemaToHive.rowFormatClause rf) ++
        JsonSchemaToHive.clauseStr (JsonSchemaToHive.storedAsClause ff) ++
        JsonSchemaToHive.clauseStr (JsonSchemaToHive.serdeClause sp) ++
        JsonSchemaToHive.clauseStr (JsonSchemaToHive.locationClause loc) ++
        JsonSchemaToHive.clauseStr (JsonSchemaToHive.tblPropsClause tp)) ∧
    (∀ col, JsonSchemaToHive.optDictTruthy col = false →
      JsonSchemaToHive.clauseStr (JsonSchemaToHive.colsClause col) = "") ∧
    (∀ col, JsonSchemaToHive.clauseStr (JsonSchemaToHive.colsClause col) = "" ∨
      ∃ t, JsonSchemaToHive.clauseStr (JsonSchemaToHive.colsClause col) =
        "\n(" ++ t ++ ")") ∧
    (∀ desc, JsonSchemaToHive.optStrTruthy desc = false →
      JsonSchemaToHive.clauseStr (JsonSchemaToHive.commentClause desc) = "") ∧
    (∀ desc, JsonSchemaToHive.clauseStr (JsonSchemaToHive.commentClause desc) = "" ∨
      ∃ t, JsonSchemaToHive.clauseStr (JsonSchemaToHive.commentClause desc) =
        "\nCOMMENT \x27" ++ t ++ "\x27") ∧
    (∀ part, JsonSchemaToHive.optDictTruthy part = false →
      JsonSchemaToHive.clauseStr (JsonSchemaToHive.partitionClause part) = "") ∧
    (∀ part, JsonSchemaToHive.clauseStr (JsonSchemaToHive.partitionClause part) = "" ∨
      ∃ t, JsonSchemaToHive.clauseStr (JsonSchemaToHive.partitionClause part) =
        "\nPARTITIONED BY (" ++ t ++ ")") ∧
    (∀ cp nb, JsonSchemaToHive.clauseStr (JsonSchemaToHive.clusteringClause cp nb) = "" ∨
      ∃ t, JsonSchemaToHive.clauseStr (JsonSchemaToHive.clusteringClause cp nb) =
        "\nCLUSTERED BY (" ++ t) ∧
    (∀ rf, JsonSchemaToHive.optStrTruthy rf = false →
      JsonSchemaToHive.clauseStr (JsonSchemaToHive.rowFormatClause rf) = "") ∧
    (∀ rf, JsonSchemaToHive.clauseStr (JsonSchemaToHive.rowFormatClause rf) = "" ∨
      ∃ t, JsonSchemaToHive.clauseStr (JsonSchemaToHive.rowFormatClause rf) =
        "\nROW FORMAT \x27" ++ t ++ "\x27") ∧
    (∀ ff, JsonSchemaToHive.optStrTruthy ff = false →
      JsonSchemaToHive.clauseStr (JsonSchemaToHive.storedAsClause ff) = "") ∧
    (∀ ff, JsonSchemaToHive.clauseStr (JsonSchemaToHive.storedAsClause ff) = "" ∨
      ∃ t, JsonSchemaToHive.clauseStr (JsonSchemaToHive.storedAsClause ff) =
        "\nSTORED AS " ++ t) ∧
    (∀ sp, JsonSchemaToHive.optDictTruthy sp = false →
      JsonSchemaToHive.clauseStr (JsonSchemaToHive.serdeClause sp) = "") ∧
    (∀ sp, JsonSchemaToHive.clauseStr (JsonSchemaToHive.serdeClause sp) = "" ∨
      ∃ t, JsonSchemaToHive.clauseStr (JsonSchemaToHive.serdeClause sp) =
        "\nWITH SERDEPROPERTIES (" ++ t ++ ")") ∧
    (∀ loc, JsonSchemaToHive.optStrTruthy loc = false →
      JsonSchemaToHive.clauseStr (JsonSchemaToHive.locationClause loc) = "") ∧
    (∀ loc, JsonSchemaToHive.clauseStr (JsonSchemaToHive.locationClause loc) = "" ∨
      ∃ t, JsonSchemaToHive.clauseStr (JsonSchemaToHive.locationClause loc) =
        "\nLOCATION \x27" ++ t ++ "\x27") ∧
    (∀ tp, JsonSchemaToHive.optDictTruthy tp = false →
      JsonSchemaToHive.clauseStr (JsonSchemaToHive.tblPropsClause tp) = "") ∧
    (∀ tp, JsonSchemaToHive.clauseStr (JsonSchemaToHive.tblPropsClause tp) = "" ∨
      ∃ t, JsonSchemaToHive.clauseStr (JsonSchemaToHive.tblPropsClause tp) =
        "\nTBLPROPERTIES (" ++ t ++ ")") := by
  refine ⟨?_, ?_, ?_, ?_, ?_, ?_, ?_, ?_, ?_, ?_, ?_, ?_, ?_, ?_, ?_, ?_, ?_, ?_, ?_⟩
  · intro db tb
    unfold JsonSchemaToHive.create_table
    simp [JsonSchemaToHive.appendClauses, JsonSchemaToHive.colsClause,
      JsonSchemaToHive.commentClause, JsonSchemaToHive.partitionClause,
      JsonSchemaToHive.clusteringClause, JsonSchemaToHive.rowFormatClause,
      JsonSchemaToHive.storedAsClause, JsonSchemaToHive.serdeClause,
      JsonSchemaToHive.locationClause, JsonSchemaToHive.tblPropsClause,
      JsonSchemaToHive.optListTruthy, JsonSchemaToHive.optIntTruthy]
  · intro db tb col desc part cp nb rf ff sp loc tp Q L h
    unfold JsonSchemaToHive.create_table at h
    obtain ⟨hq, _, _⟩ := JsonSchemaToHive.appendClauses_ok h
    rw [hq]
    simp [JsonSchemaToHive.clausesStr, String.append_assoc]
  · intro col hf
    rcases col with _ | cd
    · rfl
    · simp only [JsonSchemaToHive.optDictTruthy, Bool.not_eq_false'] at hf
      simp [JsonSchemaToHive.colsClause, JsonSchemaToHive.clauseStr, hf]
  · intro col
    rcases col with _ | cd
    · exact Or.inl rfl
    · simp only [JsonSchemaToHive.colsClause]
      by_cases he : cd.isEmpty
      · simp [he, JsonSchemaToHive.clauseStr]
      · simp only [he]
        cases hf : JsonSchemaToHive.format_table_columns cd "" with
        | mk fr fl =>
          cases fr with
          | error e => exact Or.inl (by simp [JsonSchemaToHive.clauseStr])
          | ok s => exact Or.inr ⟨s, by simp [JsonSchemaToHive.clauseStr]⟩
  · intro desc hf
    rcases desc with _ | d
    · rfl
    · simp only [JsonSchemaToHive.optStrTruthy, Bool.not_eq_false'] at hf
      simp [JsonSchemaToHive.commentClause, JsonSchemaToHive.clauseStr, hf]
  · intro desc
    rcases desc with _ | d
    · exact Or.inl rfl
    · by_cases he : d.isEmpty
      · exact Or.inl (by simp [JsonSchemaToHive.commentClause, JsonSchemaToHive.clauseStr, he])
      · exact Or.inr ⟨d, by simp [JsonSchemaToHive.commentClause, JsonSchemaToHive.clauseStr, he, String.append_assoc]⟩
  · intro part hf
    rcases part with _ | pd
    · rfl
    · simp only [JsonSchemaToHive.optDictTruthy, Bool.not_eq_false'] at hf
      simp [JsonSchemaToHive.partitionClause, JsonSchemaToHive.clauseStr, hf]
  · intro part
    rcases part with _ | pd
    · exact Or.inl rfl
    · simp only [JsonSchemaToHive.partitionClause]
      by_cases he : pd.isEmpty
      · simp [he, JsonSchemaToHive.clauseStr]
      · simp only [he]
        cases hf : JsonSchemaToHive.format_table_columns pd "" with
        | mk fr fl =>
          cases fr with
          | error e => exact Or.inl (by simp [JsonSchemaToHive.clauseStr])
          | ok s => exact Or.inr ⟨s, by simp [JsonSchemaToHive.clauseStr]⟩
  · intro cp nb
    by_cases hb : (JsonSchemaToHive.optListTruthy cp && JsonSchemaToHive.optIntTruthy nb) = true
    · rcases cp with _ | cps
      · simp [JsonSchemaToHive.optListTruthy] at hb
      rcases nb with _ | n
      · simp [JsonSchemaToHive.optIntTruthy] at hb
      refine Or.inr ⟨strJoin "," cps ++ ") INTO " ++ toString n ++ " BUCKETS", ?_⟩
      rw [JsonSchemaToHive.clusteringClause_both hb]
      simp [JsonSchemaToHive.clauseStr, String.append_assoc]
    · refine Or.inl ?_
      have := JsonSchemaToHive.clusteringClause_not_both (Bool.not_eq_true _ ▸ hb)
      simp [JsonSchemaToHive.clauseStr, this]
  · intro rf hf
    rcases rf with _ | r
    · rfl
    · simp only [JsonSchemaToHive.optStrTruthy, Bool.not_eq_false'] at hf
      simp [JsonSchemaToHive.rowFormatClause, JsonSchemaToHive.clauseStr, hf]
  · intro rf
    rcases rf with _ | r
    · exact Or.inl rfl
    · by_cases he : r.isEmpty
      · exact Or.inl (by simp [JsonSchemaToHive.rowFormatClause, JsonSchemaToHive.clauseStr, he])
      · exact Or.inr ⟨r, by simp [JsonSchemaToHive.rowFormatClause, JsonSchemaToHive.clauseStr, he, String.append_assoc]⟩
  · intro ff hf
    rcases ff with _ | f
    · rfl
    · simp only [JsonSchemaToHive.optStrTruthy, Bool.not_eq_false'] at hf
      simp [JsonSchemaToHive.storedAsClause, JsonSchemaToHive.clauseStr, hf]
  · intro ff
    rcases ff with _ | f
    · exact Or.inl rfl
    · by_cases he : f.isEmpty
      · exact Or.inl (by simp [JsonSchemaToHive.storedAsClause, JsonSchemaToHive.clauseStr, he])
      · exact Or.inr ⟨f, by simp [JsonSchemaToHive.storedAsClause, JsonSchemaToHive.clauseStr, he]⟩
  · intro sp hf
    rcases sp with _ | s
    · rfl
    · simp only [JsonSchemaToHive.optDictTruthy, Bool.not_eq_false'] at hf
      simp [JsonSchemaToHive.serdeClause, JsonSchemaToHive.clauseStr, hf]
  · intro sp
    rcases sp with _ | s
    · exact Or.inl rfl
    · by_cases he : s.isEmpty
      · exact Or.inl (by simp [JsonSchemaToHive.serdeClause, JsonSchemaToHive.clauseStr, he])
      · exact Or.inr ⟨JsonSchemaToHive.format_table_properties s,
          by simp [JsonSchemaToHive.serdeClause, JsonSchemaToHive.clauseStr, he, String.append_assoc]⟩
  · intro loc hf
    rcases loc with _ | l
    · rfl
    · simp only [JsonSchemaToHive.optStrTruthy, Bool.not_eq_false'] at hf
      simp [JsonSchemaToHive.locationClause, JsonSchemaToHive.clauseStr, hf]
  · intro loc
    rcases loc with _ | l
    · exact Or.inl rfl
    · by_cases he : l.isEmpty
      · exact Or.inl (by simp [JsonSchemaToHive.locationClause, JsonSchemaToHive.clauseStr, he])
      · exact Or.inr ⟨l, by simp [JsonSchemaToHive.locationClause, JsonSchemaToHive.clauseStr, he, String.append_assoc]⟩
  · intro tp hf
    rcases tp with _ | t
    · rfl
    · simp only [JsonSchemaToHive.optDictTruthy, Bool.not_eq_false'] at hf
      simp [JsonSchemaToHive.tblPropsClause, JsonSchemaToHive.clauseStr, hf]
  · intro tp
    rcases tp with _ | t
    · exact Or.inl rfl
    · by_cases he : t.isEmpty
      · exact Or.inl (by simp [JsonSchemaToHive.tblPropsClause, JsonSchemaToHive.clauseStr, he])
      · exact Or.inr ⟨JsonSchemaToHive.format_table_properties t,
          by simp [JsonSchemaToHive.tblPropsClause, JsonSchemaToHive.clauseStr, he, String.append_assoc]⟩

/-- C7 witness: a concrete successful build (only `file_format`
supplied) decomposes as the base statement followed by the clause texts
in the fixed order. -/
theorem create_table_fixed_clause_order_witness :
    "CREATE EXTERNAL TABLE IF NOT EXISTS db.tb\nSTORED AS PARQUET" =
      "CREATE EXTERNAL TABLE IF NOT EXISTS " ++ "db" ++ "." ++ "tb" ++
        JsonSchemaToHive.clauseStr (JsonSchemaToHive.colsClause none) ++
        JsonSchemaToHive.clauseStr (JsonSchemaToHive.commentClause none) ++
        JsonSchemaToHive.clauseStr (JsonSchemaToHive.partitionClause none) ++
        JsonSchemaToHive.clauseStr (JsonSchemaToHive.clusteringClause none none) ++
        JsonSchemaToHive.clauseStr (JsonSchemaToHive.rowFormatClause none) ++
        JsonSchemaToHive.clauseStr (JsonSchemaToHive.storedAsClause (some "PARQUET")) ++
        JsonSchemaToHive.clauseStr (JsonSchemaToHive.serdeClause none) ++
        JsonSchemaToHive.clauseStr (JsonSchemaToHive.locationClause none) ++
        JsonSchemaToHive.clauseStr (JsonSchemaToHive.tblPropsClause none) :=
  create_table_fixed_clause_order.2.1 "db" "tb" none none none none none none
    (some "PARQUET") none none none _ _ rfl
